import Mathlib

/-!
Verification of the think-tool server core (`src/think_tool/server.py`).

The embedding models the thought log as a `List ThoughtEntry` and the four
tool operations (`think`, `get_thoughts`, `clear_thoughts`,
`get_thought_stats`) as pure functions over that list.  Timestamps are
supplied as an explicit parameter (in the source they come from the clock
at call time).  Python `Optional` values become `Option`, Python dicts with
optional keys become structures with `Option` fields, `float` becomes `ℚ`,
and Python string slicing/length operate on code points, embedded here via
`String.data : List Char`.
-/

namespace ThinkTool

/-- One entry of `self.thoughts_log`: a dict with mandatory keys
`timestamp` and `thought`, and the keys `pattern`, `confidence`,
`alternatives`, `justification` present exactly when the corresponding
argument of `think` was not `None` (server.py lines 64-77). -/
structure ThoughtEntry where
  timestamp : String
  thought : String
  pattern : Option String
  confidence : Option ℚ
  alternatives : Option (List String)
  justification : Option String
deriving DecidableEq

/-- Python string slicing `s[:n]`: the first `n` code points. -/
def pyTake (s : String) (n : ℕ) : String :=
  String.mk (s.data.take n)

/-- Python `len(s)` for a string: number of code points. -/
def pyLen (s : String) : ℕ :=
  s.data.length

/-- Round the fraction `n / d` (with `d > 0`) to the nearest integer, ties
to even — the rounding used by Python's `round` and `%.2f` formatting at
the value level.  Written with floored integer division so that it
evaluates by kernel reduction: with `f = ⌊n / d⌋` and `rem = n - f * d`,
the fractional part is `rem / d`, compared against `1/2` via `2 * rem`
against `d`; the result depends only on the value `n / d`. -/
def roundHalfEvenND (n d : ℤ) : ℤ :=
  let f := Int.fdiv n d
  let rem := n - f * d
  if 2 * rem < d then f
  else if d < 2 * rem then f + 1
  else if f % 2 = 0 then f else f + 1

/-- Python `round(q, 2)`: `q * 100` is the fraction
`(q.num * 100) / q.den`, rounded half-even and scaled back. -/
def round2 (q : ℚ) : ℚ :=
  (roundHalfEvenND (q.num * 100) (q.den : ℤ) : ℚ) / 100

/-- Python `f"{q:.2f}"`: fixed-point rendering with exactly two decimal
places. -/
def formatConf2 (q : ℚ) : String :=
  let n := roundHalfEvenND (q.num * 100) (q.den : ℤ)
  let sign := if n < 0 then "-" else ""
  let m := n.natAbs
  let fp := m % 100
  let fpStr := if fp < 10 then "0" ++ toString fp else toString fp
  sign ++ toString (m / 100) ++ "." ++ fpStr

/-- Substring test: `pat` occurs contiguously inside `s`.  Used to state
"the confirmation string contains ...". -/
def strContainsB (s pat : String) : Bool :=
  s.data.tails.any (fun t => pat.data.isPrefixOf t)

/-- Confirmation string built by `think` (server.py lines 82-88).  Note the
source tests `if pattern:` (Python truthiness: not `None` AND non-empty)
but `if confidence is not None:`. -/
def thinkConfirmation (thought : String) (pattern : Option String)
    (confidence : Option ℚ) : String :=
  let confirmation := "Thought recorded: " ++ pyTake thought 100 ++ "..."
  let confirmation :=
    match pattern with
    | some p => if p ≠ "" then confirmation ++ " [Pattern: " ++ p ++ "]" else confirmation
    | none => confirmation
  match confidence with
  | some c => confirmation ++ " [Confidence: " ++ formatConf2 c ++ "]"
  | none => confirmation

/-- The `think` tool (server.py lines 44-88): appends a new entry carrying
exactly the supplied optional fields and returns the confirmation string.
`ts` is the timestamp string produced by `get_local_timestamp`. -/
def think (log : List ThoughtEntry) (ts thought : String)
    (pattern : Option String) (confidence : Option ℚ)
    (alternatives : Option (List String)) (justification : Option String) :
    List ThoughtEntry × String :=
  let thought_entry : ThoughtEntry :=
    { timestamp := ts, thought := thought, pattern := pattern,
      confidence := confidence, alternatives := alternatives,
      justification := justification }
  (log ++ [thought_entry], thinkConfirmation thought pattern confidence)

/-- Rendering of one entry inside `get_thoughts` (server.py lines 100-125),
with the 1-based index `i`. -/
def formatThought (i : ℕ) (entry : ThoughtEntry) : String :=
  let thought_str := "Thought #" ++ toString i ++ " (" ++ entry.timestamp ++ "):"
  let metadata :=
    (match entry.pattern with
     | some p => ["Pattern: " ++ p]
     | none => []) ++
    (match entry.confidence with
     | some c => ["Confidence: " ++ formatConf2 c]
     | none => [])
  let thought_str :=
    if metadata ≠ [] then thought_str ++ " [" ++ String.intercalate ", " metadata ++ "]"
    else thought_str
  let thought_str := thought_str ++ "\n" ++ entry.thought
  let thought_str :=
    match entry.justification with
    | some j => thought_str ++ "\nJustification: " ++ j
    | none => thought_str
  let thought_str :=
    match entry.alternatives with
    | some alts => if alts ≠ [] then thought_str ++ "\nAlternatives considered: " ++ String.intercalate ", " alts else thought_str
    | none => thought_str
  thought_str ++ "\n"

/-- The `get_thoughts` tool (server.py lines 91-127). -/
def get_thoughts (log : List ThoughtEntry) : String :=
  if log = [] then "No thoughts have been recorded yet."
  else String.intercalate "\n" (log.enum.map (fun p => formatThought (p.1 + 1) p.2))

/-- The `clear_thoughts` tool (server.py lines 130-137): returns the new
(empty) log and the confirmation reporting the prior count. -/
def clear_thoughts (log : List ThoughtEntry) : List ThoughtEntry × String :=
  ([], "Cleared " ++ toString log.length ++ " recorded thoughts.")

/-- Lexicographic max step for pairs, exactly Python `max` over tuples:
the current value is replaced only when the new item is strictly greater. -/
def maxPair (a b : ℕ × ℤ) : ℕ × ℤ :=
  if a.1 < b.1 ∨ (a.1 = b.1 ∧ a.2 < b.2) then b else a

/-- The generator `(len(entry["thought"]), i) for i, entry in enumerate(log)`
(server.py line 147); the index is kept as an integer to model the `-1`
default and the `>= 0` test. -/
def lenPairs (log : List ThoughtEntry) : List (ℕ × ℤ) :=
  log.enum.map (fun p => (pyLen p.2.thought, (p.1 : ℤ)))

/-- `max((len(entry["thought"]), i) ...) if self.thoughts_log else (0, -1)`
(server.py line 147). -/
def longestThought (log : List ThoughtEntry) : ℕ × ℤ :=
  match lenPairs log with
  | [] => (0, -1)
  | h :: t => t.foldl maxPair h

/-- One step of `pattern_counts[pattern] = pattern_counts.get(pattern, 0) + 1`
on an insertion-ordered association list (server.py line 158). -/
def incrPattern (counts : List (String × ℕ)) (p : String) : List (String × ℕ) :=
  if counts.any (fun kv => kv.1 = p)
  then counts.map (fun kv => if kv.1 = p then (kv.1, kv.2 + 1) else kv)
  else counts ++ [(p, 1)]

/-- The accumulation loop of `get_thought_stats` for `pattern_counts`
(server.py lines 155-158). -/
def patternCounts (log : List ThoughtEntry) : List (String × ℕ) :=
  log.foldl
    (fun counts entry =>
      match entry.pattern with
      | some p => incrPattern counts p
      | none => counts) []

/-- `confidence_values` collected by the loop (server.py lines 160-161). -/
def confidenceValues (log : List ThoughtEntry) : List ℚ :=
  log.filterMap (fun entry => entry.confidence)

/-- `thoughts_with_justification` (server.py lines 163-164). -/
def thoughtsWithJustification (log : List ThoughtEntry) : ℕ :=
  (log.filter (fun entry => entry.justification.isSome)).length

/-- `thoughts_with_alternatives`: counts entries where the key is present
AND the list is truthy, i.e. non-empty (server.py lines 166-167). -/
def thoughtsWithAlternatives (log : List ThoughtEntry) : ℕ :=
  (log.filter (fun entry =>
    match entry.alternatives with
    | some alts => !alts.isEmpty
    | none => false)).length

/-- The structured `stats` dict built at server.py lines 169-178. -/
structure ThoughtStats where
  total_thoughts : ℕ
  average_length : ℚ
  longest_thought_index : Option ℤ
  longest_thought_length : Option ℕ
  pattern_distribution : List (String × ℕ)
  average_confidence : Option ℚ
  thoughts_with_justification : ℕ
  thoughts_with_alternatives : ℕ
deriving DecidableEq

/-- The `get_thought_stats` tool (server.py lines 140-180): the sentinel
string on an empty log, otherwise the structured stats. -/
def get_thought_stats (log : List ThoughtEntry) : String ⊕ ThoughtStats :=
  if log = [] then Sum.inl "No thoughts have been recorded yet."
  else
    let total_thoughts := log.length
    let avg_length : ℚ :=
      if total_thoughts ≠ 0 then ((log.map (fun entry => (pyLen entry.thought : ℚ))).sum) / total_thoughts
      else 0
    let longest_thought := longestThought log
    let confidence_values := confidenceValues log
    Sum.inr
      { total_thoughts := total_thoughts
        average_length := round2 avg_length
        longest_thought_index :=
          if longest_thought.2 ≥ 0 then some (longest_thought.2 + 1) else none
        longest_thought_length :=
          if longest_thought.1 > 0 then some longest_thought.1 else none
        pattern_distribution := patternCounts log
        average_confidence :=
          if confidence_values ≠ [] then
            some (round2 (confidence_values.sum / (confidence_values.length : ℚ)))
          else none
        thoughts_with_justification := thoughtsWithJustification log
        thoughts_with_alternatives := thoughtsWithAlternatives log }

/-- Division that signals a zero divisor, used to check that no division in
`get_thought_stats` can divide by zero. -/
def safeDiv (a b : ℚ) : Option ℚ :=
  if b = 0 then none else some (a / b)

/-- `get_thought_stats` with every division routed through `safeDiv`:
returns `none` exactly when some division the source performs would have a
zero divisor.  The divisions appear under the same guards as in the source
(the `if total_thoughts else 0` conditional at line 146 and the
`if confidence_values else None` conditional at line 175). -/
def get_thought_stats_checked (log : List ThoughtEntry) :
    Option (String ⊕ ThoughtStats) :=
  if log = [] then some (Sum.inl "No thoughts have been recorded yet.")
  else
    let total_thoughts := log.length
    let avgLenOpt : Option ℚ :=
      if total_thoughts ≠ 0 then
        safeDiv ((log.map (fun entry => (pyLen entry.thought : ℚ))).sum) (total_thoughts : ℚ)
      else some 0
    match avgLenOpt with
    | none => none
    | some avg_length =>
      let longest_thought := longestThought log
      let confidence_values := confidenceValues log
      let avgConfOpt : Option (Option ℚ) :=
        if confidence_values ≠ [] then
          (safeDiv confidence_values.sum (confidence_values.length : ℚ)).map
            (fun q => some (round2 q))
        else some none
      match avgConfOpt with
      | none => none
      | some average_confidence =>
        some (Sum.inr
          { total_thoughts := total_thoughts
            average_length := round2 avg_length
            longest_thought_index :=
              if longest_thought.2 ≥ 0 then some (longest_thought.2 + 1) else none
            longest_thought_length :=
              if longest_thought.1 > 0 then some longest_thought.1 else none
            pattern_distribution := patternCounts log
            average_confidence := average_confidence
            thoughts_with_justification := thoughtsWithJustification log
            thoughts_with_alternatives := thoughtsWithAlternatives log })

/-- The four tool calls, as session operations on the log state.  `think`
carries the timestamp and the five arguments. -/
inductive Op where
  | opThink (ts thought : String) (pattern : Option String) (confidence : Option ℚ)
      (alternatives : Option (List String)) (justification : Option String)
  | opGetThoughts
  | opClear
  | opGetStats
deriving DecidableEq

/-- State transition of one tool call: `think` appends, `clear_thoughts`
empties, the two read-only tools leave the log unchanged. -/
def applyOp (log : List ThoughtEntry) : Op → List ThoughtEntry
  | Op.opThink ts thought pattern confidence alternatives justification =>
      (think log ts thought pattern confidence alternatives justification).1
  | Op.opGetThoughts => log
  | Op.opClear => (clear_thoughts log).1
  | Op.opGetStats => log

/-- Whether an operation is an append. -/
def isThink : Op → Bool
  | Op.opThink _ _ _ _ _ _ => true
  | _ => false

/-- Maximum thought length over the whole log (specification-side notion
for `longest_thought_length`). -/
def maxLen (log : List ThoughtEntry) : ℕ :=
  (log.map (fun entry => pyLen entry.thought)).foldr max 0

/-- Lexicographic order on (length, index) pairs, the order Python compares
the tuples of server.py line 147 by. -/
def pairLe (x y : ℕ × ℤ) : Prop :=
  x.1 < y.1 ∨ (x.1 = y.1 ∧ x.2 ≤ y.2)

/-- Demonstration log used to instantiate the hypotheses of the theorems
below: two entries whose thoughts have equal length 5. -/
def demoLog : List ThoughtEntry :=
  [{ timestamp := "ts1", thought := "abcde", pattern := some "a",
     confidence := some (1/2), alternatives := some [], justification := some "j" },
   { timestamp := "ts2", thought := "vwxyz", pattern := none,
     confidence := none, alternatives := none, justification := none }]

theorem pairLe_refl (x : ℕ × ℤ) : pairLe x x := Or.inr ⟨rfl, le_refl _⟩

theorem pairLe_trans {x y z : ℕ × ℤ} (h1 : pairLe x y) (h2 : pairLe y z) :
    pairLe x z := by
  rcases h1 with h1 | ⟨h1a, h1b⟩ <;> rcases h2 with h2 | ⟨h2a, h2b⟩
  · exact Or.inl (h1.trans h2)
  · exact Or.inl (h2a ▸ h1)
  · exact Or.inl (h1a ▸ h2)
  · exact Or.inr ⟨h1a.trans h2a, h1b.trans h2b⟩

theorem pairLe_maxPair_left (a b : ℕ × ℤ) : pairLe a (maxPair a b) := by
  unfold maxPair
  split
  next h =>
    rcases h with h | ⟨h1, h2⟩
    · exact Or.inl h
    · exact Or.inr ⟨h1, le_of_lt h2⟩
  next _ => exact pairLe_refl a

theorem pairLe_maxPair_right (a b : ℕ × ℤ) : pairLe b (maxPair a b) := by
  unfold maxPair
  split
  next _ => exact pairLe_refl b
  next h =>
    push_neg at h
    rcases Nat.lt_or_ge b.1 a.1 with hlt | hge
    · exact Or.inl hlt
    · have h1 : a.1 = b.1 := le_antisymm hge h.1
      exact Or.inr ⟨h1.symm, h.2 h1⟩

theorem maxPair_eq_or (a b : ℕ × ℤ) : maxPair a b = a ∨ maxPair a b = b := by
  unfold maxPair
  split
  · exact Or.inr rfl
  · exact Or.inl rfl

theorem foldl_maxPair_le (t : List (ℕ × ℤ)) :
    ∀ a : ℕ × ℤ, pairLe a (t.foldl maxPair a) ∧
      ∀ x ∈ t, pairLe x (t.foldl maxPair a) := by
  induction t with
  | nil => intro a; exact ⟨pairLe_refl a, by simp⟩
  | cons y t ih =>
    intro a
    obtain ⟨h1, h2⟩ := ih (maxPair a y)
    refine ⟨pairLe_trans (pairLe_maxPair_left a y) h1, ?_⟩
    intro x hx
    rcases List.mem_cons.mp hx with rfl | hx
    · exact pairLe_trans (pairLe_maxPair_right a x) h1
    · exact h2 x hx

theorem foldl_maxPair_mem (t : List (ℕ × ℤ)) :
    ∀ a : ℕ × ℤ, t.foldl maxPair a = a ∨ t.foldl maxPair a ∈ t := by
  induction t with
  | nil => intro a; exact Or.inl rfl
  | cons y t ih =>
    intro a
    rcases ih (maxPair a y) with h | h
    · rcases maxPair_eq_or a y with h' | h'
      · exact Or.inl (h.trans h')
      · exact Or.inr (List.mem_cons.mpr (Or.inl (h.trans h')))
    · exact Or.inr (List.mem_cons_of_mem _ h)

theorem lenPairs_length (log : List ThoughtEntry) :
    (lenPairs log).length = log.length := by
  simp [lenPairs]

theorem lenPairs_getElem (log : List ThoughtEntry) (i : ℕ) (h : i < log.length) :
    (lenPairs log).get ⟨i, by rw [lenPairs_length]; exact h⟩ =
      (pyLen (log.get ⟨i, h⟩).thought, (i : ℤ)) := by
  simp [lenPairs, List.getElem_enum]

/-- Characterization of `longestThought` on a non-empty log: it equals the
(length, index) pair of some record, and that pair dominates every other
record's pair in the lexicographic order. -/
theorem longestThought_spec (log : List ThoughtEntry) (h : log ≠ []) :
    ∃ j : Fin log.length,
      longestThought log = (pyLen (log.get j).thought, (j : ℤ)) ∧
      ∀ k : Fin log.length,
        pairLe (pyLen (log.get k).thought, (k : ℤ))
          (pyLen (log.get j).thought, (j : ℤ)) := by
  have hne : lenPairs log ≠ [] := by
    intro hc
    apply h
    have := lenPairs_length log
    rw [hc] at this
    exact List.length_eq_zero.mp this.symm
  obtain ⟨p, t, hcons⟩ := List.exists_cons_of_ne_nil hne
  have hval : longestThought log = t.foldl maxPair p := by
    simp [longestThought, hcons]
  -- the result is a member of lenPairs log
  have hmem : longestThought log ∈ lenPairs log := by
    rw [hval, hcons]
    rcases foldl_maxPair_mem t p with h' | h'
    · rw [h']; exact List.mem_cons_self p t
    · exact List.mem_cons_of_mem p h'
  -- the result dominates every member
  have hdom : ∀ x ∈ lenPairs log, pairLe x (longestThought log) := by
    intro x hx
    rw [hcons] at hx
    rw [hval]
    rcases List.mem_cons.mp hx with rfl | hx
    · exact (foldl_maxPair_le t x).1
    · exact (foldl_maxPair_le t p).2 x hx
  obtain ⟨i, hi0, hix⟩ := List.mem_iff_getElem.mp hmem
  have hi : i < log.length := by rw [← lenPairs_length]; exact hi0
  have hget : (lenPairs log).get ⟨i, hi0⟩ = longestThought log := by
    simpa using hix
  have hieq : longestThought log = (pyLen (log.get ⟨i, hi⟩).thought, (i : ℤ)) := by
    rw [← hget]
    exact lenPairs_getElem log i hi
  refine ⟨⟨i, hi⟩, hieq, ?_⟩
  intro k
  rw [← hieq]
  apply hdom
  rw [← lenPairs_getElem log k.val k.isLt]
  exact List.get_mem _ _ _

/-- On a non-empty log, `get_thought_stats` returns the structured stats
record with the fields built at server.py lines 169-178. -/
theorem get_thought_stats_eq (log : List ThoughtEntry) (h : log ≠ []) :
    get_thought_stats log = Sum.inr
      { total_thoughts := log.length
        average_length := round2
          (if log.length ≠ 0 then
            ((log.map (fun entry => (pyLen entry.thought : ℚ))).sum) / (log.length : ℚ)
          else 0)
        longest_thought_index :=
          if (longestThought log).2 ≥ 0 then some ((longestThought log).2 + 1) else none
        longest_thought_length :=
          if (longestThought log).1 > 0 then some (longestThought log).1 else none
        pattern_distribution := patternCounts log
        average_confidence :=
          if confidenceValues log ≠ [] then
            some (round2 ((confidenceValues log).sum / ((confidenceValues log).length : ℚ)))
          else none
        thoughts_with_justification := thoughtsWithJustification log
        thoughts_with_alternatives := thoughtsWithAlternatives log } := by
  unfold get_thought_stats
  rw [if_neg h]

theorem le_foldr_max (l : List ℕ) (x : ℕ) (hx : x ∈ l) : x ≤ l.foldr max 0 := by
  induction l with
  | nil => simp at hx
  | cons y t ih =>
    rcases List.mem_cons.mp hx with rfl | hx
    · exact le_max_left _ _
    · exact le_trans (ih hx) (le_max_right _ _)

theorem foldr_max_le (l : List ℕ) (b : ℕ) (hb : ∀ x ∈ l, x ≤ b) :
    l.foldr max 0 ≤ b := by
  induction l with
  | nil => simp
  | cons y t ih =>
    simp only [List.foldr_cons]
    exact max_le (hb y (List.mem_cons_self y t))
      (ih fun x hx => hb x (List.mem_cons_of_mem _ hx))

/-- The first component of `longestThought` is the maximum thought length. -/
theorem longestThought_fst_eq_maxLen (log : List ThoughtEntry) (h : log ≠ []) :
    (longestThought log).1 = maxLen log := by
  obtain ⟨j, hval, hdom⟩ := longestThought_spec log h
  apply le_antisymm
  · rw [hval]
    apply le_foldr_max
    exact List.mem_map.mpr ⟨log.get j, List.get_mem _ _ _, rfl⟩
  · apply foldr_max_le
    intro x hx
    obtain ⟨e, he, hex⟩ := List.mem_map.mp hx
    obtain ⟨k, hk⟩ := List.mem_iff_get.mp he
    have hd := hdom k
    unfold pairLe at hd
    rw [hval, ← hex, ← hk]
    rcases hd with hlt | ⟨heq, _⟩
    · exact le_of_lt hlt
    · exact le_of_eq heq

/-- C1: on every non-empty log, `longest_thought_index` is the 1-based
index of the record maximizing the pair (length, index) lexicographically;
any other record has strictly smaller length, or equal length and a
strictly smaller index — so among tied maximal lengths the last occurrence
wins. -/
theorem get_stats_longest_index_lex_max (log : List ThoughtEntry) (h : log ≠ []) :
    ∃ st : ThoughtStats, get_thought_stats log = Sum.inr st ∧
      ∃ j : Fin log.length,
        st.longest_thought_index = some ((j : ℕ) + 1 : ℤ) ∧
        ∀ k : Fin log.length, k ≠ j →
          pyLen (log.get k).thought < pyLen (log.get j).thought ∨
          (pyLen (log.get k).thought = pyLen (log.get j).thought ∧ (k : ℕ) < (j : ℕ)) := by
  obtain ⟨j, hval, hdom⟩ := longestThought_spec log h
  refine ⟨_, get_thought_stats_eq log h, j, ?_, ?_⟩
  · show (if (longestThought log).2 ≥ 0 then some ((longestThought log).2 + 1) else none) = _
    rw [hval]
    have : ((j : ℕ) : ℤ) ≥ 0 := Int.natCast_nonneg _
    simp [this]
  · intro k hk
    have hd := hdom k
    unfold pairLe at hd
    rcases hd with hlt | ⟨heq, hle⟩
    · exact Or.inl hlt
    · refine Or.inr ⟨heq, ?_⟩
      have hle2 : ((k : ℕ) : ℤ) ≤ ((j : ℕ) : ℤ) := hle
      have hle' : (k : ℕ) ≤ (j : ℕ) := by exact_mod_cast hle2
      exact lt_of_le_of_ne hle' (fun hc => hk (Fin.ext hc))

/-- Witness for C1: the demonstration log has two thoughts of equal length
5, and the reported index is that of the second. -/
theorem get_stats_longest_index_lex_max_witness :
    demoLog ≠ [] ∧
    (∃ st : ThoughtStats, get_thought_stats demoLog = Sum.inr st ∧
      ∃ j : Fin demoLog.length,
        st.longest_thought_index = some ((j : ℕ) + 1 : ℤ) ∧
        ∀ k : Fin demoLog.length, k ≠ j →
          pyLen (demoLog.get k).thought < pyLen (demoLog.get j).thought ∨
          (pyLen (demoLog.get k).thought = pyLen (demoLog.get j).thought ∧ (k : ℕ) < (j : ℕ))) :=
  ⟨by decide, get_stats_longest_index_lex_max demoLog (by decide)⟩

/-- C9: on every non-empty log, `longest_thought_length` is the maximum
thought length, reported as absent exactly when that maximum is 0. -/
theorem get_stats_longest_length_max (log : List ThoughtEntry) (h : log ≠ []) :
    ∃ st : ThoughtStats, get_thought_stats log = Sum.inr st ∧
      st.longest_thought_length =
        (if maxLen log = 0 then none else some (maxLen log)) := by
  refine ⟨_, get_thought_stats_eq log h, ?_⟩
  show (if (longestThought log).1 > 0 then some (longestThought log).1 else none) = _
  rw [longestThought_fst_eq_maxLen log h]
  rcases Nat.eq_zero_or_pos (maxLen log) with h0 | h0
  · simp [h0]
  · simp [h0, Nat.pos_iff_ne_zero.mp h0]

/-- Witness for C9 at the demonstration log: maximum length 5, reported as
present. -/
theorem get_stats_longest_length_max_witness :
    demoLog ≠ [] ∧
    (∃ st : ThoughtStats, get_thought_stats demoLog = Sum.inr st ∧
      st.longest_thought_length =
        (if maxLen demoLog = 0 then none else some (maxLen demoLog))) :=
  ⟨by decide, get_stats_longest_length_max demoLog (by decide)⟩

theorem foldl_applyOp_length (ops : List Op) :
    ∀ l : List ThoughtEntry, (∀ op ∈ ops, op ≠ Op.opClear) →
      (ops.foldl applyOp l).length = l.length + (ops.filter isThink).length := by
  induction ops with
  | nil => intro l _; simp
  | cons op ops ih =>
    intro l hops
    have hop : op ≠ Op.opClear := hops op (List.mem_cons_self _ _)
    have hops' : ∀ o ∈ ops, o ≠ Op.opClear := fun o ho => hops o (List.mem_cons_of_mem _ ho)
    cases op with
    | opThink ts th p c a j =>
      simp only [List.foldl_cons, List.filter_cons]
      rw [ih _ hops']
      simp [applyOp, think, isThink]
      omega
    | opGetThoughts =>
      simp only [List.foldl_cons, List.filter_cons]
      rw [ih _ hops']
      simp [applyOp, isThink]
    | opClear => exact absurd rfl hop
    | opGetStats =>
      simp only [List.foldl_cons, List.filter_cons]
      rw [ih _ hops']
      simp [applyOp, isThink]

/-- Demonstration operation sequence: think, read, think. -/
def demoOps : List Op :=
  [Op.opThink "t1" "abc" none none none none,
   Op.opGetStats,
   Op.opThink "t2" "de" none none none none]

/-- C2: starting from a clear (the session-start state is the same empty
log), running any clear-free sequence of operations leaves exactly one
record per think call; think grows the log by exactly 1, the read-only
operations do not change it, and on a non-empty log `get_thought_stats`
reports that count as `total_thoughts`. -/
theorem total_thoughts_counts_appends (l : List ThoughtEntry) (ops : List Op)
    (hops : ∀ op ∈ ops, op ≠ Op.opClear) :
    (ops.foldl applyOp (applyOp l Op.opClear)).length = (ops.filter isThink).length ∧
    (∀ (log : List ThoughtEntry) (ts thought : String) (pattern : Option String)
        (confidence : Option ℚ) (alternatives : Option (List String))
        (justification : Option String),
      (think log ts thought pattern confidence alternatives justification).1.length
        = log.length + 1) ∧
    (∀ log : List ThoughtEntry,
      applyOp log Op.opGetThoughts = log ∧ applyOp log Op.opGetStats = log) ∧
    (ops.foldl applyOp (applyOp l Op.opClear) ≠ [] →
      ∃ st : ThoughtStats,
        get_thought_stats (ops.foldl applyOp (applyOp l Op.opClear)) = Sum.inr st ∧
        st.total_thoughts = (ops.filter isThink).length) := by
  have hlen : (ops.foldl applyOp (applyOp l Op.opClear)).length
      = (ops.filter isThink).length := by
    have := foldl_applyOp_length ops (applyOp l Op.opClear) hops
    simpa [applyOp, clear_thoughts] using this
  refine ⟨hlen, ?_, ?_, ?_⟩
  · intro log ts thought pattern confidence alternatives justification
    simp [think]
  · intro log
    exact ⟨rfl, rfl⟩
  · intro hne
    exact ⟨_, get_thought_stats_eq _ hne, hlen⟩

/-- Witness for C2: two thinks and one read after a clear of the
demonstration log leave two records. -/
theorem total_thoughts_counts_appends_witness :
    (∀ op ∈ demoOps, op ≠ Op.opClear) ∧
    ((demoOps.foldl applyOp (applyOp demoLog Op.opClear)).length
        = (demoOps.filter isThink).length ∧
      (∀ (log : List ThoughtEntry) (ts thought : String) (pattern : Option String)
          (confidence : Option ℚ) (alternatives : Option (List String))
          (justification : Option String),
        (think log ts thought pattern confidence alternatives justification).1.length
          = log.length + 1) ∧
      (∀ log : List ThoughtEntry,
        applyOp log Op.opGetThoughts = log ∧ applyOp log Op.opGetStats = log) ∧
      (demoOps.foldl applyOp (applyOp demoLog Op.opClear) ≠ [] →
        ∃ st : ThoughtStats,
          get_thought_stats (demoOps.foldl applyOp (applyOp demoLog Op.opClear)) = Sum.inr st ∧
          st.total_thoughts = (demoOps.filter isThink).length)) :=
  ⟨by decide, total_thoughts_counts_appends demoLog demoOps (by decide)⟩

theorem confidenceValues_length_eq (log : List ThoughtEntry) :
    (confidenceValues log).length
      = (log.filter (fun entry => entry.confidence.isSome)).length := by
  induction log with
  | nil => rfl
  | cons e t ih =>
    cases hc : e.confidence with
    | none =>
      simpa [confidenceValues, List.filterMap_cons, List.filter_cons, hc]
        using ih
    | some c =>
      simpa [confidenceValues, List.filterMap_cons, List.filter_cons, hc]
        using ih

/-- C3: on every non-empty log, `average_length` is the mean thought
length rounded to two decimals; `average_confidence` is the mean of the
supplied confidence values over the confidence-bearing records rounded to
two decimals, and is absent exactly when no record supplied one. -/
theorem get_stats_averages (log : List ThoughtEntry) (h : log ≠ []) :
    ∃ st : ThoughtStats, get_thought_stats log = Sum.inr st ∧
      st.average_length =
        round2 (((log.map (fun entry => (pyLen entry.thought : ℚ))).sum) / (log.length : ℚ)) ∧
      ((log.filter (fun entry => entry.confidence.isSome)).length = 0 →
        st.average_confidence = none) ∧
      ((log.filter (fun entry => entry.confidence.isSome)).length ≠ 0 →
        st.average_confidence =
          some (round2 ((confidenceValues log).sum
            / ((log.filter (fun entry => entry.confidence.isSome)).length : ℚ)))) := by
  have h1 : log.length ≠ 0 := fun hc => h (List.length_eq_zero.mp hc)
  refine ⟨_, get_thought_stats_eq log h, ?_, ?_, ?_⟩
  · show round2 (if log.length ≠ 0 then _ else 0) = _
    rw [if_pos h1]
  · intro hc
    show (if confidenceValues log ≠ [] then _ else none) = none
    rw [if_neg]
    intro hne
    exact hne (List.length_eq_zero.mp ((confidenceValues_length_eq log).trans hc))
  · intro hc
    show (if confidenceValues log ≠ [] then _ else none) = _
    rw [if_pos, confidenceValues_length_eq]
    intro hcv
    apply hc
    rw [← confidenceValues_length_eq, hcv]
    rfl

/-- Witness for C3 at the demonstration log: one of two records carries a
confidence, so the average is over that single record. -/
theorem get_stats_averages_witness :
    demoLog ≠ [] ∧
    (∃ st : ThoughtStats, get_thought_stats demoLog = Sum.inr st ∧
      st.average_length =
        round2 (((demoLog.map (fun entry => (pyLen entry.thought : ℚ))).sum)
          / (demoLog.length : ℚ)) ∧
      ((demoLog.filter (fun entry => entry.confidence.isSome)).length = 0 →
        st.average_confidence = none) ∧
      ((demoLog.filter (fun entry => entry.confidence.isSome)).length ≠ 0 →
        st.average_confidence =
          some (round2 ((confidenceValues demoLog).sum
            / ((demoLog.filter (fun entry => entry.confidence.isSome)).length : ℚ))))) :=
  ⟨by decide, get_stats_averages demoLog (by decide)⟩

/-- C4 counterexample: the pattern argument supplied as the non-null empty
string produces a confirmation with no bracketed pattern segment at all,
because the source tests Python truthiness (`if pattern:`), not
`is not None`. -/
theorem think_pattern_annotation_counterexample :
    (some "" : Option String).isSome = true ∧
    strContainsB (thinkConfirmation "t" (some "") none) "[Pattern:" = false := by
  decide

/-- C4 (amended): a bracketed pattern segment appears exactly when the
pattern argument was supplied AND non-empty; a bracketed confidence
segment formatted to two decimals appears exactly when the confidence
argument was supplied; otherwise the corresponding segment is absent. -/
theorem think_confirmation_annotations (thought : String) (pattern : Option String)
    (confidence : Option ℚ) :
    (∀ p : String, pattern = some p → p ≠ "" →
      ∃ a b : String, thinkConfirmation thought pattern confidence
        = a ++ ("[Pattern: " ++ p ++ "]") ++ b) ∧
    (∀ c : ℚ, confidence = some c →
      ∃ a : String, thinkConfirmation thought pattern confidence
        = a ++ ("[Confidence: " ++ formatConf2 c ++ "]")) ∧
    ((pattern = none ∨ pattern = some "") →
      thinkConfirmation thought pattern confidence
        = "Thought recorded: " ++ pyTake thought 100 ++ "..."
            ++ (match confidence with
                | some c => " [Confidence: " ++ formatConf2 c ++ "]"
                | none => "")) ∧
    (confidence = none →
      thinkConfirmation thought pattern confidence
        = "Thought recorded: " ++ pyTake thought 100 ++ "..."
            ++ (match pattern with
                | some p => if p ≠ "" then " [Pattern: " ++ p ++ "]" else ""
                | none => "")) := by
  refine ⟨?_, ?_, ?_, ?_⟩
  · rintro p rfl hp
    refine ⟨"Thought recorded: " ++ pyTake thought 100 ++ "..." ++ " ",
      (match confidence with
       | some c => " [Confidence: " ++ formatConf2 c ++ "]"
       | none => ""), ?_⟩
    cases confidence <;>
      (apply String.ext;
       simp [thinkConfirmation, hp, String.data_append, List.append_assoc])
  · rintro c rfl
    refine ⟨("Thought recorded: " ++ pyTake thought 100 ++ "...")
        ++ (match pattern with
            | some p => if p ≠ "" then " [Pattern: " ++ p ++ "]" else ""
            | none => "") ++ " ", ?_⟩
    rcases pattern with _ | p
    · apply String.ext
      simp [thinkConfirmation, String.data_append, List.append_assoc]
    · by_cases hp : p = "" <;>
        (apply String.ext;
         simp [thinkConfirmation, hp, String.data_append, List.append_assoc])
  · rintro (rfl | rfl) <;> cases confidence <;>
      (apply String.ext;
       simp [thinkConfirmation, String.data_append, List.append_assoc])
  · rintro rfl
    rcases pattern with _ | p
    · apply String.ext
      simp [thinkConfirmation, String.data_append, List.append_assoc]
    · by_cases hp : p = "" <;>
        (apply String.ext;
         simp [thinkConfirmation, hp, String.data_append, List.append_assoc])

/-- Witness for the amended C4: the scenario call carries pattern
"critical" and confidence 4/5, and the bracketed pattern segment occurs in
the confirmation. -/
theorem think_confirmation_annotations_witness :
    ∃ a b : String, thinkConfirmation "t" (some "critical") (some (mkRat 4 5))
      = a ++ ("[Pattern: " ++ "critical" ++ "]") ++ b :=
  (think_confirmation_annotations "t" (some "critical") (some (mkRat 4 5))).1
    "critical" rfl (by decide)

/-- C5: every confirmation contains the first 100 characters of the
thought followed by the ellipsis marker (appended unconditionally), and
the scenario append("Consider edge cases", pattern "critical", confidence
4/5, i.e. 0.8) contains "Consider edge cases...", "[Pattern: critical]"
and "[Confidence: 0.80]". -/
theorem think_confirmation_truncation (thought : String) (pattern : Option String)
    (confidence : Option ℚ) :
    (∃ a b : String, thinkConfirmation thought pattern confidence
        = a ++ (pyTake thought 100 ++ "...") ++ b) ∧
    strContainsB (thinkConfirmation "Consider edge cases" (some "critical") (some (mkRat 4 5)))
      "Consider edge cases..." = true ∧
    strContainsB (thinkConfirmation "Consider edge cases" (some "critical") (some (mkRat 4 5)))
      "[Pattern: critical]" = true ∧
    strContainsB (thinkConfirmation "Consider edge cases" (some "critical") (some (mkRat 4 5)))
      "[Confidence: 0.80]" = true := by
  refine ⟨?_, by decide, by decide, by decide⟩
  refine ⟨"Thought recorded: ",
    (match pattern with
     | some p => if p ≠ "" then " [Pattern: " ++ p ++ "]" else ""
     | none => "")
      ++ (match confidence with
          | some c => " [Confidence: " ++ formatConf2 c ++ "]"
          | none => ""), ?_⟩
  rcases pattern with _ | p
  · cases confidence <;>
      (apply String.ext;
       simp [thinkConfirmation, String.data_append, List.append_assoc])
  · by_cases hp : p = "" <;> cases confidence <;>
      (apply String.ext;
       simp [thinkConfirmation, hp, String.data_append, List.append_assoc])

/-- C6: clear empties the log, reports exactly the prior record count,
reports 0 when called again immediately, and both read operations on the
cleared log return the empty-log sentinel. -/
theorem clear_thoughts_spec (log : List ThoughtEntry) :
    (clear_thoughts log).1 = [] ∧
    (clear_thoughts log).2 = "Cleared " ++ toString log.length ++ " recorded thoughts." ∧
    (clear_thoughts (clear_thoughts log).1).2 = "Cleared 0 recorded thoughts." ∧
    get_thoughts (clear_thoughts log).1 = "No thoughts have been recorded yet." ∧
    get_thought_stats (clear_thoughts log).1
      = Sum.inl "No thoughts have been recorded yet." := by
  refine ⟨rfl, rfl, ?_, rfl, rfl⟩
  show (clear_thoughts ([] : List ThoughtEntry)).2 = "Cleared 0 recorded thoughts."
  decide

/-- C7: the record appended by think stores each optional field exactly as
supplied — present if and only if the argument was non-null, with a
supplied empty alternatives list stored as present — and no operation
changes any record already in the log (every index that survives holds the
same record). -/
theorem record_fields_iff_supplied (log : List ThoughtEntry) (ts thought : String)
    (pattern : Option String) (confidence : Option ℚ)
    (alternatives : Option (List String)) (justification : Option String) (op : Op) :
    (∃ e : ThoughtEntry,
      (think log ts thought pattern confidence alternatives justification).1 = log ++ [e] ∧
      e.timestamp = ts ∧ e.thought = thought ∧
      e.pattern = pattern ∧ e.confidence = confidence ∧
      e.alternatives = alternatives ∧ e.justification = justification ∧
      (e.pattern.isSome ↔ pattern.isSome) ∧
      (e.confidence.isSome ↔ confidence.isSome) ∧
      (e.alternatives.isSome ↔ alternatives.isSome) ∧
      (e.justification.isSome ↔ justification.isSome) ∧
      (alternatives = some [] → e.alternatives = some [])) ∧
    (∀ (i : ℕ) (h1 : i < log.length) (h2 : i < (applyOp log op).length),
      (applyOp log op).get ⟨i, h2⟩ = log.get ⟨i, h1⟩) := by
  refine ⟨⟨_, rfl, rfl, rfl, rfl, rfl, rfl, rfl, Iff.rfl, Iff.rfl, Iff.rfl, Iff.rfl,
    fun ha => ha⟩, ?_⟩
  intro i h1 h2
  cases op with
  | opThink ts2 th2 p2 c2 a2 j2 =>
    show (log ++ [_]).get ⟨i, _⟩ = log.get ⟨i, h1⟩
    simp only [List.get_eq_getElem]
    rw [List.getElem_append i, dif_pos h1]
  | opGetThoughts => rfl
  | opClear => simp [applyOp, clear_thoughts] at h2
  | opGetStats => rfl

/-- Witness for C7: on the demonstration log, a read-only operation leaves
the record at index 0 unchanged. -/
theorem record_fields_iff_supplied_witness :
    (applyOp demoLog Op.opGetThoughts).get ⟨0, by decide⟩ = demoLog.get ⟨0, by decide⟩ :=
  (record_fields_iff_supplied demoLog "ts" "t" none none (some []) none
    Op.opGetThoughts).2 0 (by decide) (by decide)

/-- C8: on the empty log, both read operations return the same fixed
"no thoughts recorded" sentinel string, character for character. -/
theorem empty_log_sentinel_identical :
    get_thoughts [] = "No thoughts have been recorded yet." ∧
    get_thought_stats [] = Sum.inl "No thoughts have been recorded yet." ∧
    ∃ s : String, get_thoughts [] = s ∧ get_thought_stats [] = Sum.inl s :=
  ⟨rfl, rfl, "No thoughts have been recorded yet.", rfl, rfl⟩

/-- C10: no division in `get_thought_stats` can have a zero divisor: the
checked variant, which returns `none` as soon as any division the source
performs would divide by zero, agrees with the plain function on every
log. -/
theorem get_thought_stats_checked_total (log : List ThoughtEntry) :
    get_thought_stats_checked log = some (get_thought_stats log) := by
  by_cases h : log = []
  · subst h; rfl
  · have h1 : log.length ≠ 0 := fun hc => h (List.length_eq_zero.mp hc)
    have h1q : (log.length : ℚ) ≠ 0 := Nat.cast_ne_zero.mpr h1
    by_cases hcv : confidenceValues log = []
    · simp [get_thought_stats_checked, get_thought_stats, h, h1, h1q, hcv, safeDiv]
    · have hcv1 : (confidenceValues log).length ≠ 0 :=
        fun hc => hcv (List.length_eq_zero.mp hc)
      have hcvq : ((confidenceValues log).length : ℚ) ≠ 0 := Nat.cast_ne_zero.mpr hcv1
      simp [get_thought_stats_checked, get_thought_stats, h, h1, h1q, hcv, hcvq, safeDiv]

end ThinkTool
